import Mathlib

/-!
Shallow embedding of the Readers-Writers repository (seven C++ policy files).
Each policy's bookkeeping state is a structure; the code mutated under the
bookkeeping mutex `mtx` becomes a pure transition function (each critical
region of `mtx` is one atomic transition).  Grant operations return `Option`
(`none` = the caller stays blocked on its condition variable), release
operations return the new state together with the list of wake signals the
code issues.  `resource` counts how many times `resource_mutex` is currently
locked (lock = +1, unlock = -1), so lock/unlock pairing is visible in the
state.  C++ `int` counters are embedded as `Int` so that decrements below
zero are representable exactly as in the source.
-/

/-- Wake signals issued by release paths: condition-variable calls in the
source (`notify_all` on the single cv of the writer-preference file is
`allWaiters`; the two-cv files use the reader/writer-directed forms). -/
inductive Wake
  | oneWriter
  | allReaders
  | oneReader
  | allWaiters
  deriving DecidableEq

/-- Request kinds of the FIFO fair policy (src/readers_writers_fair.cpp). -/
inductive RequestType
  | READ
  | WRITE
  deriving DecidableEq, BEq

/-- Bookkeeping state of `ReadersWriterLock` in src/readers_writers.cpp
(writer preference).  `resource` is the hold count of `resource_mutex`. -/
structure WPState where
  reader_count : Int
  writer_active : Bool
  waiting_writers : Int
  resource : Int
  deriving DecidableEq

def WPInit : WPState := ⟨0, false, 0, 0⟩

/-- Wait predicate of `read_lock` (src/readers_writers.cpp lines 27-29). -/
def WP.read_pred (s : WPState) : Bool :=
  !s.writer_active && s.waiting_writers == 0

/-- Wait predicate of `write_lock` (src/readers_writers.cpp lines 67-69). -/
def WP.write_pred (s : WPState) : Bool :=
  s.reader_count == 0 && !s.writer_active

/-- `read_lock` (src/readers_writers.cpp lines 22-40): the caller proceeds
only once its wait predicate holds (`none` = still blocked); the first
reader then locks `resource_mutex`. -/
def WP.read_lock (s : WPState) : Option WPState :=
  if WP.read_pred s then
    some { s with
      reader_count := s.reader_count + 1,
      resource := if s.reader_count + 1 = 1 then s.resource + 1 else s.resource }
  else none

/-- `read_unlock` (src/readers_writers.cpp lines 43-57): decrement, and the
last reader unlocks `resource_mutex` and calls `write_cv.notify_all()`. -/
def WP.read_unlock (s : WPState) : WPState × List Wake :=
  if s.reader_count - 1 = 0 then
    ({ s with reader_count := s.reader_count - 1, resource := s.resource - 1 },
      [Wake.allWaiters])
  else
    ({ s with reader_count := s.reader_count - 1 }, [])

/-- First half of `write_lock` (src/readers_writers.cpp line 64): the
arriving writer registers itself before waiting. -/
def WP.writer_arrive (s : WPState) : WPState :=
  { s with waiting_writers := s.waiting_writers + 1 }

/-- Second half of `write_lock` (src/readers_writers.cpp lines 67-78): once
the wait predicate holds the writer marks itself active, deregisters, and
locks `resource_mutex`. -/
def WP.write_granted (s : WPState) : Option WPState :=
  if WP.write_pred s then
    some { s with
      writer_active := true,
      waiting_writers := s.waiting_writers - 1,
      resource := s.resource + 1 }
  else none

/-- `write_unlock` (src/readers_writers.cpp lines 82-95): clear the flag,
unlock `resource_mutex`, `notify_all`. -/
def WP.write_unlock (s : WPState) : WPState × List Wake :=
  ({ s with writer_active := false, resource := s.resource - 1 },
    [Wake.allWaiters])

/-- Bookkeeping state of the educational writer-preference variant
(src/readers_writers_educational.cpp); it has no `resource_mutex`. -/
structure EduState where
  reader_count : Int
  writer_active : Bool
  waiting_writers : Int
  deriving DecidableEq

/-- Wait predicate of `read_lock` in src/readers_writers_educational.cpp
lines 55-57. -/
def Edu.read_pred (s : EduState) : Bool :=
  !s.writer_active && s.waiting_writers == 0

/-- Wait predicate of `write_lock` in src/readers_writers_educational.cpp
lines 104-106. -/
def Edu.write_pred (s : EduState) : Bool :=
  s.reader_count == 0 && !s.writer_active

/-- Bookkeeping state of `ReadersWriterLock` in
src/readers_writers_readers_priority.cpp (reader preference). -/
structure RPState where
  reader_count : Int
  writer_active : Bool
  resource : Int
  deriving DecidableEq

def RPInit : RPState := ⟨0, false, 0⟩

/-- Wait predicate of `read_lock` (readers_priority lines 30-32): readers
wait only while a writer is active. -/
def RP.read_pred (s : RPState) : Bool :=
  !s.writer_active

/-- Wait predicate of `write_lock` (readers_priority lines 66-68). -/
def RP.write_pred (s : RPState) : Bool :=
  s.reader_count == 0 && !s.writer_active

/-- `read_lock` (readers_priority lines 25-43). -/
def RP.read_lock (s : RPState) : Option RPState :=
  if RP.read_pred s then
    some { s with
      reader_count := s.reader_count + 1,
      resource := if s.reader_count + 1 = 1 then s.resource + 1 else s.resource }
  else none

/-- `read_unlock` (readers_priority lines 46-59): the last reader unlocks
`resource_mutex` and calls `writer_cv.notify_one()`. -/
def RP.read_unlock (s : RPState) : RPState × List Wake :=
  if s.reader_count - 1 = 0 then
    ({ s with reader_count := s.reader_count - 1, resource := s.resource - 1 },
      [Wake.oneWriter])
  else
    ({ s with reader_count := s.reader_count - 1 }, [])

/-- `write_lock` (readers_priority lines 62-77): once the wait predicate
holds the writer marks itself active and locks `resource_mutex`. -/
def RP.write_granted (s : RPState) : Option RPState :=
  if RP.write_pred s then
    some { s with writer_active := true, resource := s.resource + 1 }
  else none

/-- `write_unlock` (readers_priority lines 80-95): clear the flag, unlock
`resource_mutex`, `reader_cv.notify_all()` then `writer_cv.notify_one()`. -/
def RP.write_unlock (s : RPState) : RPState × List Wake :=
  ({ s with writer_active := false, resource := s.resource - 1 },
    [Wake.allReaders, Wake.oneWriter])

/-- Bookkeeping state of `ReadersWriterMonitor`
(src/readers_writers_monitor.cpp); this file has no `resource_mutex`. -/
structure MonState where
  reader_count : Int
  writer_active : Bool
  waiting_readers : Int
  waiting_writers : Int
  deriving DecidableEq

def MonInitSt : MonState := ⟨0, false, 0, 0⟩

/-- Negation of the `while` wait condition of `start_read` (monitor lines
33-35): a reader proceeds when neither a writer is active nor any writer
is waiting. -/
def Mon.read_pred (s : MonState) : Bool :=
  !(s.writer_active || decide (0 < s.waiting_writers))

/-- Negation of the `while` wait condition of `start_write` (monitor lines
70-72). -/
def Mon.write_pred (s : MonState) : Bool :=
  !(decide (0 < s.reader_count) || s.writer_active)

/-- Arrival half of `start_read` (monitor line 30). -/
def Mon.reader_arrive (s : MonState) : MonState :=
  { s with waiting_readers := s.waiting_readers + 1 }

/-- Grant half of `start_read` (monitor lines 33-44): once the wait
condition fails the reader deregisters, counts itself active, and cascades
one `read_cv.notify_one()` to the next waiting reader. -/
def Mon.start_read (s : MonState) : Option (MonState × List Wake) :=
  if Mon.read_pred s then
    some ({ s with
      waiting_readers := s.waiting_readers - 1,
      reader_count := s.reader_count + 1 }, [Wake.oneReader])
  else none

/-- `end_read` (monitor lines 48-60): decrement; signal one writer only if
this was the last reader and some writer is waiting. -/
def Mon.end_read (s : MonState) : MonState × List Wake :=
  ({ s with reader_count := s.reader_count - 1 },
    if s.reader_count - 1 = 0 ∧ 0 < s.waiting_writers then [Wake.oneWriter] else [])

/-- Arrival half of `start_write` (monitor line 67). -/
def Mon.writer_arrive (s : MonState) : MonState :=
  { s with waiting_writers := s.waiting_writers + 1 }

/-- Grant half of `start_write` (monitor lines 70-78). -/
def Mon.start_write (s : MonState) : Option MonState :=
  if Mon.write_pred s then
    some { s with
      waiting_writers := s.waiting_writers - 1,
      writer_active := true }
  else none

/-- `end_write` (monitor lines 82-98): clear the flag; signal one writer if
any is waiting, else broadcast to all waiting readers (if any). -/
def Mon.end_write (s : MonState) : MonState × List Wake :=
  ({ s with writer_active := false },
    if 0 < s.waiting_writers then [Wake.oneWriter]
    else if 0 < s.waiting_readers then [Wake.allReaders] else [])

/-- `get_state` (monitor lines 101-108): reads the four counters under the
monitor lock and writes nothing; embedded as state passed through plus the
returned tuple (`writer_active` is reported as 0/1 as in the source). -/
def Mon.get_state (s : MonState) : MonState × (Int × Int × Int × Int) :=
  (s, (s.reader_count, if s.writer_active then 1 else 0,
       s.waiting_readers, s.waiting_writers))

/-- One pending request of the FIFO fair policy, tagged with an arrival
identifier so that grant order can be stated. -/
abbrev FairReq := Nat × RequestType

/-- Bookkeeping state of `FairReadersWriterLock`
(src/readers_writers_fair.cpp).  `queue` is `request_queue` (front = head);
`granted` is a history variable recording, in order, the ids whose
`granted` flag was set (each set exactly once, together with its
`cv->notify_one()`); `resource` is the hold count of `resource_mutex`. -/
structure FairState where
  queue : List FairReq
  active_readers : Int
  writer_active : Bool
  resource : Int
  granted : List Nat
  deriving DecidableEq

def FairInit : FairState := ⟨[], 0, false, 0, []⟩

/-- The `while` loop of `process_queue` (fair lines 49-55): keep popping
consecutive READ requests at the head, counting each as active and marking
it granted.  Loop state = (queue, active_readers, granted history). -/
def Fair.drainReads : List FairReq → Int → List Nat → List FairReq × Int × List Nat
  | (id, RequestType.READ) :: rest, n, g =>
      Fair.drainReads rest (n + 1) (g ++ [id])
  | q, n, g => (q, n, g)

/-- `process_queue` (fair lines 35-66): examine the head request; grant a
READ head (plus the run of consecutive READs behind it) when no writer is
active; grant a WRITE head when no readers and no writer are active.
Note: no branch of this function touches `resource_mutex`. -/
def Fair.process_queue (s : FairState) : FairState :=
  match s.queue with
  | [] => s
  | (id, RequestType.READ) :: rest =>
      if s.writer_active then s
      else
        let r := Fair.drainReads rest (s.active_readers + 1) (s.granted ++ [id])
        { s with queue := r.1, active_readers := r.2.1, granted := r.2.2 }
  | (id, RequestType.WRITE) :: rest =>
      if s.active_readers = 0 ∧ s.writer_active = false then
        { s with queue := rest, writer_active := true, granted := s.granted ++ [id] }
      else s

/-- `read_lock` (fair lines 70-87): push a READ request, run
`process_queue`; the caller then blocks until its request is granted.
The read path never locks `resource_mutex` (the comment at line 85
claims the first reader acquired it in `process_queue`, but no line of
`process_queue` does). -/
def Fair.read_lock (id : Nat) (s : FairState) : FairState :=
  Fair.process_queue { s with queue := s.queue ++ [(id, RequestType.READ)] }

/-- `read_unlock` (fair lines 90-105): decrement; the last reader unlocks
`resource_mutex`; then `process_queue`. -/
def Fair.read_unlock (s : FairState) : FairState :=
  Fair.process_queue
    { s with
      active_readers := s.active_readers - 1,
      resource := if s.active_readers - 1 = 0 then s.resource - 1 else s.resource }

/-- Enqueue half of `write_lock` (fair lines 108-121): push a WRITE
request and run `process_queue`; the caller blocks until granted. -/
def Fair.write_request (id : Nat) (s : FairState) : FairState :=
  Fair.process_queue { s with queue := s.queue ++ [(id, RequestType.WRITE)] }

/-- Tail of `write_lock` (fair line 126): the granted writer locks
`resource_mutex` before entering its critical section. -/
def Fair.write_enter (s : FairState) : FairState :=
  { s with resource := s.resource + 1 }

/-- `write_unlock` (fair lines 130-143): clear the flag, unlock
`resource_mutex`, then `process_queue`. -/
def Fair.write_unlock (s : FairState) : FairState :=
  Fair.process_queue { s with writer_active := false, resource := s.resource - 1 }

/-- `queue_size` (fair lines 146-150): reads the queue length under `mtx`
and writes nothing; embedded as state passed through plus the length. -/
def Fair.queue_size (s : FairState) : FairState × Nat :=
  (s, s.queue.length)

/-- Bookkeeping state of `ReadersWriterSemaphore`
(src/readers_writers_semaphore.cpp): the three binary semaphore values
plus the reader count and the writer-waiting flag. -/
structure SemState where
  mutex : Int
  write_mutex : Int
  read_mutex : Int
  reader_count : Int
  writer_waiting : Bool
  deriving DecidableEq

def SemInit : SemState := ⟨1, 1, 1, 0, false⟩

/-- One pass of `reader_lock` (semaphore lines 57-82), run without
interference: `sem_wait(read_mutex)`, `sem_wait(mutex)`, read
`writer_waiting` into `should_wait`; if clear, count the reader and let
the first reader take `write_mutex`; then post `mutex` and `read_mutex`.
Returns the updated state and `should_wait` (true = the caller will sleep
and retry). -/
def Sem.reader_pass (s : SemState) : SemState × Bool :=
  let s1 := { s with read_mutex := s.read_mutex - 1 }
  let s2 := { s1 with mutex := s1.mutex - 1 }
  let should_wait := s2.writer_waiting
  let s3 :=
    if should_wait then s2
    else
      { s2 with
        reader_count := s2.reader_count + 1,
        write_mutex :=
          if s2.reader_count + 1 = 1 then s2.write_mutex - 1 else s2.write_mutex }
  let s4 := { s3 with mutex := s3.mutex + 1 }
  ({ s4 with read_mutex := s4.read_mutex + 1 }, should_wait)

/-- The self-recursive retry of `reader_lock` (semaphore lines 77-81):
after a pass that observed `writer_waiting`, sleep and call `reader_lock`
again, with no retry limit.  `env k` is the value of `writer_waiting` the
k-th pass observes (writers flip the flag concurrently); `fuel` bounds the
recursion depth only so the embedding is total — `none` means the call has
not returned within `fuel` passes. -/
def Sem.reader_lock : Nat → (Nat → Bool) → Nat → SemState → Option SemState
  | 0, _, _, _ => none
  | fuel + 1, env, k, s =>
      let r := Sem.reader_pass { s with writer_waiting := env k }
      if r.2 then Sem.reader_lock fuel env (k + 1) r.1
      else some r.1

/-- `reader_unlock` (semaphore lines 85-95). -/
def Sem.reader_unlock (s : SemState) : SemState :=
  let s1 := { s with mutex := s.mutex - 1 }
  let s2 :=
    { s1 with
      reader_count := s1.reader_count - 1,
      write_mutex :=
        if s1.reader_count - 1 = 0 then s1.write_mutex + 1 else s1.write_mutex }
  { s2 with mutex := s2.mutex + 1 }

/-!
Transition systems.  One step = one critical region of the bookkeeping
mutex.  Release steps carry the well-formed-usage guard that a matching
outstanding grant exists (the releasing thread is inside its critical
section), exactly the call discipline the demo harness follows.
-/

/-- Steps of the writer-preference engine (src/readers_writers.cpp). -/
inductive WPStep : WPState → WPState → Prop
  | readGrant (s s' : WPState) : WP.read_lock s = some s' → WPStep s s'
  | readRel (s : WPState) : 0 < s.reader_count → WPStep s (WP.read_unlock s).1
  | wArrive (s : WPState) : WPStep s (WP.writer_arrive s)
  | writeGrant (s s' : WPState) :
      0 < s.waiting_writers → WP.write_granted s = some s' → WPStep s s'
  | writeRel (s : WPState) : s.writer_active = true → WPStep s (WP.write_unlock s).1

def WPReach (s : WPState) : Prop := Relation.ReflTransGen WPStep WPInit s

/-- Steps of the reader-preference engine (readers_priority). -/
inductive RPStep : RPState → RPState → Prop
  | readGrant (s s' : RPState) : RP.read_lock s = some s' → RPStep s s'
  | readRel (s : RPState) : 0 < s.reader_count → RPStep s (RP.read_unlock s).1
  | writeGrant (s s' : RPState) : RP.write_granted s = some s' → RPStep s s'
  | writeRel (s : RPState) : s.writer_active = true → RPStep s (RP.write_unlock s).1

def RPReach (s : RPState) : Prop := Relation.ReflTransGen RPStep RPInit s

/-- Steps of the FIFO fair engine (src/readers_writers_fair.cpp). -/
inductive FairStep : FairState → FairState → Prop
  | readReq (s : FairState) (id : Nat) : FairStep s (Fair.read_lock id s)
  | writeReq (s : FairState) (id : Nat) : FairStep s (Fair.write_request id s)
  | writeEnter (s : FairState) : s.writer_active = true → FairStep s (Fair.write_enter s)
  | readRel (s : FairState) : 0 < s.active_readers → FairStep s (Fair.read_unlock s)
  | writeRel (s : FairState) : s.writer_active = true → FairStep s (Fair.write_unlock s)

def FairReach (s : FairState) : Prop := Relation.ReflTransGen FairStep FairInit s

/-- Steps of the monitor engine (src/readers_writers_monitor.cpp). -/
inductive MonStep : MonState → MonState → Prop
  | rArrive (s : MonState) : MonStep s (Mon.reader_arrive s)
  | readGrant (s : MonState) (p : MonState × List Wake) :
      0 < s.waiting_readers → Mon.start_read s = some p → MonStep s p.1
  | readRel (s : MonState) : 0 < s.reader_count → MonStep s (Mon.end_read s).1
  | wArrive (s : MonState) : MonStep s (Mon.writer_arrive s)
  | writeGrant (s s' : MonState) :
      0 < s.waiting_writers → Mon.start_write s = some s' → MonStep s s'
  | writeRel (s : MonState) : s.writer_active = true → MonStep s (Mon.end_write s).1

def MonReach (s : MonState) : Prop := Relation.ReflTransGen MonStep MonInitSt s

/-!
Exclusivity invariants, one per policy, each preserved by every step.
-/

def WPInv (s : WPState) : Prop := s.writer_active = true → s.reader_count = 0

lemma wp_step_inv {s t : WPState} (h : WPStep s t) (hs : WPInv s) : WPInv t := by
  cases h with
  | readGrant s' hg =>
      unfold WP.read_lock at hg
      split at hg
      · rename_i hp
        cases hg
        intro hw
        simp only [WP.read_pred, Bool.and_eq_true, Bool.not_eq_true'] at hp
        simp [hp.1] at hw
      · exact absurd hg (by simp)
  | readRel hrc =>
      intro hw
      have hwa : s.writer_active = true := by
        unfold WP.read_unlock at hw
        split at hw <;> exact hw
      have h0 := hs hwa
      exfalso
      omega
  | wArrive =>
      intro hw
      exact hs hw
  | writeGrant s' hww hg =>
      unfold WP.write_granted at hg
      split at hg
      · rename_i hp
        cases hg
        intro _
        simp only [WP.write_pred, Bool.and_eq_true, beq_iff_eq] at hp
        exact hp.1
      · exact absurd hg (by simp)
  | writeRel hw =>
      intro hw'
      simp [WP.write_unlock] at hw'

lemma wp_reach_inv {s : WPState} (h : WPReach s) : WPInv s := by
  induction h with
  | refl => intro hw; simp [WPInit] at hw
  | tail _ hstep ih => exact wp_step_inv hstep ih

def RPInv (s : RPState) : Prop := s.writer_active = true → s.reader_count = 0

lemma rp_step_inv {s t : RPState} (h : RPStep s t) (hs : RPInv s) : RPInv t := by
  cases h with
  | readGrant s' hg =>
      unfold RP.read_lock at hg
      split at hg
      · rename_i hp
        cases hg
        intro hw
        simp only [RP.read_pred, Bool.not_eq_true'] at hp
        simp [hp] at hw
      · exact absurd hg (by simp)
  | readRel hrc =>
      intro hw
      have hwa : s.writer_active = true := by
        unfold RP.read_unlock at hw
        split at hw <;> exact hw
      have h0 := hs hwa
      exfalso
      omega
  | writeGrant s' hg =>
      unfold RP.write_granted at hg
      split at hg
      · rename_i hp
        cases hg
        intro _
        simp only [RP.write_pred, Bool.and_eq_true, beq_iff_eq] at hp
        exact hp.1
      · exact absurd hg (by simp)
  | writeRel hw =>
      intro hw'
      simp [RP.write_unlock] at hw'

lemma rp_reach_inv {s : RPState} (h : RPReach s) : RPInv s := by
  induction h with
  | refl => intro hw; simp [RPInit] at hw
  | tail _ hstep ih => exact rp_step_inv hstep ih

def FairInv (s : FairState) : Prop := s.writer_active = true → s.active_readers = 0

lemma fair_pq_inv {s : FairState} (hs : FairInv s) : FairInv (Fair.process_queue s) := by
  unfold Fair.process_queue
  split
  · exact hs
  · split
    · exact hs
    · rename_i hwa
      intro hw
      simp only at hw
      exact absurd hw hwa
  · split
    · rename_i hc
      intro _
      simp only
      exact hc.1
    · exact hs

lemma fair_step_inv {s t : FairState} (h : FairStep s t) (hs : FairInv s) : FairInv t := by
  cases h with
  | readReq id =>
      apply fair_pq_inv
      intro hw
      exact hs hw
  | writeReq id =>
      apply fair_pq_inv
      intro hw
      exact hs hw
  | writeEnter hw =>
      intro hw'
      exact hs hw'
  | readRel hrc =>
      apply fair_pq_inv
      intro hw
      simp only at hw
      have h0 := hs hw
      exfalso
      omega
  | writeRel hw =>
      apply fair_pq_inv
      intro hw'
      simp at hw'

lemma fair_reach_inv {s : FairState} (h : FairReach s) : FairInv s := by
  induction h with
  | refl => intro hw; simp [FairInit] at hw
  | tail _ hstep ih => exact fair_step_inv hstep ih

def MonInv (s : MonState) : Prop :=
  (s.writer_active = true → s.reader_count = 0) ∧ 0 ≤ s.reader_count

lemma mon_step_inv {s t : MonState} (h : MonStep s t) (hs : MonInv s) : MonInv t := by
  cases h with
  | rArrive =>
      exact ⟨hs.1, hs.2⟩
  | readGrant p hwr hg =>
      unfold Mon.start_read at hg
      split at hg
      · rename_i hp
        cases hg
        simp only [Mon.read_pred, Bool.or_eq_true, Bool.not_eq_true',
          Bool.or_eq_false_iff, decide_eq_false_iff_not, not_lt] at hp
        constructor
        · intro hw
          simp only at hw
          simp [hp.1] at hw
        · have := hs.2
          simp only
          omega
      · exact absurd hg (by simp)
  | readRel hrc =>
      constructor
      · intro hw
        simp only [Mon.end_read] at hw
        have h0 := hs.1 hw
        exfalso
        omega
      · simp only [Mon.end_read]
        omega
  | wArrive =>
      exact ⟨hs.1, hs.2⟩
  | writeGrant s' hww hg =>
      unfold Mon.start_write at hg
      split at hg
      · rename_i hp
        cases hg
        simp only [Mon.write_pred, Bool.or_eq_true, Bool.not_eq_true',
          Bool.or_eq_false_iff, decide_eq_false_iff_not, not_lt] at hp
        have hrc0 : s.reader_count = 0 := le_antisymm hp.1 hs.2
        exact ⟨fun _ => hrc0, by simp only; omega⟩
      · exact absurd hg (by simp)
  | writeRel hw =>
      constructor
      · intro hw'
        simp [Mon.end_write] at hw'
      · simpa [Mon.end_write] using hs.2

lemma mon_reach_inv {s : MonState} (h : MonReach s) : MonInv s := by
  induction h with
  | refl => exact ⟨by intro hw; simp [MonInitSt] at hw, by simp [MonInitSt]⟩
  | tail _ hstep ih => exact mon_step_inv hstep ih

/-- Request-kind test used by the grant loop: is the request a READ. -/
def Fair.isRead (r : FairReq) : Bool := r.2 == RequestType.READ

lemma fair_isRead_r (id : Nat) : Fair.isRead (id, RequestType.READ) = true := rfl

lemma fair_isRead_w (id : Nat) : Fair.isRead (id, RequestType.WRITE) = false := rfl

lemma fair_drain_spec (q : List FairReq) (n : Int) (g : List Nat) :
    (Fair.drainReads q n g).1 = q.dropWhile Fair.isRead ∧
    (Fair.drainReads q n g).2.2 = g ++ (q.takeWhile Fair.isRead).map Prod.fst := by
  induction q generalizing n g with
  | nil => simp [Fair.drainReads]
  | cons hd tl ih =>
      obtain ⟨id, ty⟩ := hd
      cases ty with
      | READ =>
          have h := ih (n + 1) (g ++ [id])
          refine ⟨?_, ?_⟩
          · simpa [Fair.drainReads, List.dropWhile_cons_of_pos (fair_isRead_r id)]
              using h.1
          · simpa [Fair.drainReads, List.takeWhile_cons_of_pos (fair_isRead_r id)]
              using h.2
      | WRITE =>
          simp [Fair.drainReads, List.dropWhile_cons, List.takeWhile_cons, fair_isRead_w]

lemma fair_drain_drop (q : List FairReq) (n : Int) (g : List Nat) :
    ∃ k, (Fair.drainReads q n g).1 = q.drop k ∧
      (Fair.drainReads q n g).2.2 = g ++ (q.take k).map Prod.fst := by
  induction q generalizing n g with
  | nil => exact ⟨0, by simp [Fair.drainReads]⟩
  | cons hd tl ih =>
      obtain ⟨id, ty⟩ := hd
      cases ty with
      | READ =>
          obtain ⟨k, hk1, hk2⟩ := ih (n + 1) (g ++ [id])
          exact ⟨k + 1, by simpa [Fair.drainReads] using hk1,
            by simpa [Fair.drainReads] using hk2⟩
      | WRITE =>
          exact ⟨0, by simp [Fair.drainReads]⟩

lemma fair_pq_drop (s : FairState) :
    ∃ k, (Fair.process_queue s).queue = s.queue.drop k ∧
      (Fair.process_queue s).granted = s.granted ++ (s.queue.take k).map Prod.fst := by
  unfold Fair.process_queue
  split
  · exact ⟨0, by simp_all⟩
  · rename_i id rest heq
    split
    · exact ⟨0, by simp_all⟩
    · obtain ⟨k, hk1, hk2⟩ := fair_drain_drop rest (s.active_readers + 1) (s.granted ++ [id])
      exact ⟨k + 1, by simp [heq, hk1], by simp [heq, hk2]⟩
  · rename_i id rest heq
    split
    · exact ⟨1, by simp [heq], by simp [heq]⟩
    · exact ⟨0, by simp_all⟩

lemma fair_pq_batch (q : List FairReq) (ar res : Int) (g : List Nat)
    (id : Nat) (rest : List FairReq) (hq : q = (id, RequestType.READ) :: rest) :
    (Fair.process_queue ⟨q, ar, false, res, g⟩).granted =
      g ++ (q.takeWhile Fair.isRead).map Prod.fst ∧
    (Fair.process_queue ⟨q, ar, false, res, g⟩).queue = q.dropWhile Fair.isRead := by
  subst hq
  have hd := fair_drain_spec rest (ar + 1) (g ++ [id])
  constructor
  · simp [Fair.process_queue, hd.2, List.takeWhile_cons_of_pos (fair_isRead_r id)]
  · simp [Fair.process_queue, hd.1, List.dropWhile_cons_of_pos (fair_isRead_r id)]

lemma wp_read_pred_iff (s : WPState) :
    WP.read_pred s = true ↔ s.writer_active = false ∧ s.waiting_writers = 0 := by
  simp [WP.read_pred, Bool.and_eq_true, Bool.not_eq_true']

lemma wp_write_pred_iff (s : WPState) :
    WP.write_pred s = true ↔ s.reader_count = 0 ∧ s.writer_active = false := by
  simp [WP.write_pred, Bool.and_eq_true, Bool.not_eq_true']

/-- C1: for every policy engine (writer preference, reader preference, FIFO
fair, monitor) and every state of its bookkeeping reachable from the
initial state under the well-formed call discipline, it is never the case
that a writer is active while the active-reader count is positive; by the
step-indexed construction of reachability this says every grant and
release transition preserves the exclusivity predicate. -/
theorem C1_exclusivity_all_policies :
    (∀ s : WPState, WPReach s → ¬(s.writer_active = true ∧ 0 < s.reader_count)) ∧
    (∀ s : RPState, RPReach s → ¬(s.writer_active = true ∧ 0 < s.reader_count)) ∧
    (∀ s : FairState, FairReach s → ¬(s.writer_active = true ∧ 0 < s.active_readers)) ∧
    (∀ s : MonState, MonReach s → ¬(s.writer_active = true ∧ 0 < s.reader_count)) := by
  refine ⟨?_, ?_, ?_, ?_⟩ <;> intro s hr hc
  · have h0 := wp_reach_inv hr hc.1
    omega
  · have h0 := rp_reach_inv hr hc.1
    omega
  · have h0 := fair_reach_inv hr hc.1
    omega
  · have h0 := (mon_reach_inv hr).1 hc.1
    omega

/-- Witness for C1: the state with an active writer reached from `WPInit`
by a writer arriving and being granted satisfies the exclusivity
predicate. -/
theorem C1_exclusivity_witness :
    ¬((⟨0, true, 0, 1⟩ : WPState).writer_active = true ∧
      0 < (⟨0, true, 0, 1⟩ : WPState).reader_count) :=
  C1_exclusivity_all_policies.1 ⟨0, true, 0, 1⟩
    (Relation.ReflTransGen.tail
      (Relation.ReflTransGen.tail Relation.ReflTransGen.refl (WPStep.wArrive WPInit))
      (WPStep.writeGrant _ _ (by decide) (by decide)))

/-- C2: in the writer-preference engine a reader is granted by `read_lock`
exactly when `!writer_active && waiting_writers == 0`, and a writer is
granted by `write_lock` exactly when `reader_count == 0 && !writer_active`
(`none` = the blocked requester keeps waiting); the educational variant
uses the same two predicates. -/
theorem C2_wp_admission_iff :
    (∀ s s' : WPState, WP.read_lock s = some s' ↔
      s.writer_active = false ∧ s.waiting_writers = 0 ∧
        s' = { s with
                reader_count := s.reader_count + 1,
                resource :=
                  (if s.reader_count + 1 = 1 then s.resource + 1 else s.resource) }) ∧
    (∀ s s' : WPState, WP.write_granted s = some s' ↔
      s.reader_count = 0 ∧ s.writer_active = false ∧
        s' = { s with
                writer_active := true,
                waiting_writers := s.waiting_writers - 1,
                resource := s.resource + 1 }) ∧
    (∀ (rc rc' ww res : Int) (wa : Bool),
      Edu.read_pred ⟨rc, wa, ww⟩ = WP.read_pred ⟨rc', wa, ww, res⟩ ∧
      Edu.write_pred ⟨rc, wa, ww⟩ = WP.write_pred ⟨rc, wa, ww, res⟩) := by
  refine ⟨?_, ?_, ?_⟩
  · intro s s'
    cases hp : WP.read_pred s with
    | false =>
        simp only [WP.read_lock, hp, Bool.false_eq_true, if_false]
        constructor
        · intro h
          cases h
        · rintro ⟨h1, h2, _⟩
          have := (wp_read_pred_iff s).2 ⟨h1, h2⟩
          simp [hp] at this
    | true =>
        obtain ⟨h1, h2⟩ := (wp_read_pred_iff s).1 hp
        simp [WP.read_lock, hp, h1, h2, eq_comm]
  · intro s s'
    cases hp : WP.write_pred s with
    | false =>
        simp only [WP.write_granted, hp, Bool.false_eq_true, if_false]
        constructor
        · intro h
          cases h
        · rintro ⟨h1, h2, _⟩
          have := (wp_write_pred_iff s).2 ⟨h1, h2⟩
          simp [hp] at this
    | true =>
        obtain ⟨h1, h2⟩ := (wp_write_pred_iff s).1 hp
        simp [WP.write_granted, hp, h1, h2, eq_comm]
  · intro rc rc' ww res wa
    exact ⟨rfl, rfl⟩

/-- Scenario states for the FIFO queue `[Read, Read, Write, Read]`: writer
9 takes the lock, requests 0 (read), 1 (read), 2 (write), 3 (read) arrive
in order and queue up, then the holders release one by one. -/
def fairT5 : FairState :=
  Fair.read_lock 3 (Fair.write_request 2 (Fair.read_lock 1 (Fair.read_lock 0
    (Fair.write_enter (Fair.write_request 9 FairInit)))))

/-- Scenario state after writer 9 releases. -/
def fairT6 : FairState := Fair.write_unlock fairT5

/-- Scenario state after the first reader releases. -/
def fairT7 : FairState := Fair.read_unlock fairT6

/-- Scenario state after the second reader releases. -/
def fairT8 : FairState := Fair.read_unlock fairT7

/-- Scenario state after writer 2 enters and releases. -/
def fairT10 : FairState := Fair.write_unlock (Fair.write_enter fairT8)

/-- C3: in the FIFO fair engine every grant pass takes requests from the
front of the queue only (so no request is granted before an earlier
arrival), a granted READ head carries the whole run of consecutive READs
behind it in the same pass, and on the concrete queue
`[Read 0, Read 1, Write 2, Read 3]` the two leading reads are granted
together, the write is granted only after both release, and the trailing
read only after the write releases. -/
theorem C3_fair_fifo_order :
    (∀ s : FairState, ∃ k, (Fair.process_queue s).queue = s.queue.drop k ∧
      (Fair.process_queue s).granted = s.granted ++ (s.queue.take k).map Prod.fst) ∧
    (∀ (q : List FairReq) (ar res : Int) (g : List Nat) (id : Nat)
        (rest : List FairReq), q = (id, RequestType.READ) :: rest →
      (Fair.process_queue ⟨q, ar, false, res, g⟩).granted =
        g ++ (q.takeWhile Fair.isRead).map Prod.fst ∧
      (Fair.process_queue ⟨q, ar, false, res, g⟩).queue = q.dropWhile Fair.isRead) ∧
    (fairT5.queue = [(0, RequestType.READ), (1, RequestType.READ),
        (2, RequestType.WRITE), (3, RequestType.READ)] ∧
     fairT5.granted = [9] ∧
     fairT6.granted = [9, 0, 1] ∧
     fairT6.queue = [(2, RequestType.WRITE), (3, RequestType.READ)] ∧
     fairT6.active_readers = 2 ∧
     fairT7.granted = [9, 0, 1] ∧
     fairT8.granted = [9, 0, 1, 2] ∧
     fairT8.queue = [(3, RequestType.READ)] ∧
     fairT10.granted = [9, 0, 1, 2, 3]) := by
  refine ⟨fair_pq_drop, ?_, ?_⟩
  · intro q ar res g id rest hq
    exact fair_pq_batch q ar res g id rest hq
  · decide

/-- Witness for C3: the batch rule applied to the concrete queue
`[Read 5, Write 6]` grants exactly read 5 and leaves the write queued. -/
theorem C3_fair_fifo_order_witness :
    (Fair.process_queue ⟨[(5, RequestType.READ), (6, RequestType.WRITE)],
        0, false, 0, []⟩).granted =
      [] ++ (([(5, RequestType.READ), (6, RequestType.WRITE)] :
        List FairReq).takeWhile Fair.isRead).map Prod.fst ∧
    (Fair.process_queue ⟨[(5, RequestType.READ), (6, RequestType.WRITE)],
        0, false, 0, []⟩).queue =
      ([(5, RequestType.READ), (6, RequestType.WRITE)] :
        List FairReq).dropWhile Fair.isRead :=
  C3_fair_fifo_order.2.1 _ 0 0 [] 5 [(6, RequestType.WRITE)] rfl

/-- C4 counterexample: after one `read_lock` from the initial state, two
`read_unlock` calls leave `reader_count = -1`: the second release is not
detected (the functions report no fault) and the counter goes below 0,
so double release is state corruption, not a reported `DoubleRelease`. -/
theorem C4_counterexample :
    WP.read_lock WPInit = some ⟨1, false, 0, 1⟩ ∧
    ((WP.read_unlock ((WP.read_unlock ⟨1, false, 0, 1⟩).1)).1).reader_count = -1 := by
  decide

/-- C4 amended: under the well-formed discipline each release takes effect
exactly once — every reader release decrements the count by exactly one and
every writer release clears the flag — but no `DoubleRelease` fault exists
in the source: an unmatched release silently drives the reader count below
zero in every policy. -/
theorem C4_release_effects :
    (∀ s : WPState, ((WP.read_unlock s).1).reader_count = s.reader_count - 1) ∧
    (∀ s : WPState, ((WP.write_unlock s).1).writer_active = false) ∧
    (∀ s : WPState, s.reader_count ≤ 0 → ((WP.read_unlock s).1).reader_count < 0) ∧
    (∀ s : FairState, s.queue = [] →
      (Fair.read_unlock s).active_readers = s.active_readers - 1) ∧
    (∀ s : FairState, s.queue = [] → s.active_readers ≤ 0 →
      (Fair.read_unlock s).active_readers < 0) ∧
    (∀ s : RPState, ((RP.read_unlock s).1).reader_count = s.reader_count - 1) ∧
    (∀ s : MonState, ((Mon.end_read s).1).reader_count = s.reader_count - 1) := by
  refine ⟨?_, ?_, ?_, ?_, ?_, ?_, ?_⟩
  · intro s
    unfold WP.read_unlock
    split <;> rfl
  · intro s
    rfl
  · intro s h
    unfold WP.read_unlock
    split <;> simp <;> omega
  · intro s h
    simp [Fair.read_unlock, Fair.process_queue, h]
  · intro s h h0
    simp [Fair.read_unlock, Fair.process_queue, h]
    omega
  · intro s
    unfold RP.read_unlock
    split <;> rfl
  · intro s
    rfl

/-- Witness for C4's amended theorem at concrete states. -/
theorem C4_release_effects_witness :
    ((WP.read_unlock ⟨0, false, 0, 0⟩).1).reader_count < 0 ∧
    (Fair.read_unlock ⟨[], 0, false, 0, []⟩).active_readers = 0 - 1 := by
  constructor
  · exact C4_release_effects.2.2.1 ⟨0, false, 0, 0⟩ (by decide)
  · exact C4_release_effects.2.2.2.1 ⟨[], 0, false, 0, []⟩ rfl

/-- C5: in the reader-preference engine a reader is granted exactly when no
writer is active (waiting writers are ignored); the last reader's release
signals one waiting writer (and only the last reader's does); a writer's
release signals all waiting readers first and then one waiting writer. -/
theorem C5_rp_reader_preference :
    (∀ s : RPState, (RP.read_lock s).isSome = true ↔ s.writer_active = false) ∧
    (∀ s : RPState, s.reader_count = 1 → (RP.read_unlock s).2 = [Wake.oneWriter]) ∧
    (∀ s : RPState, s.reader_count ≠ 1 → (RP.read_unlock s).2 = []) ∧
    (∀ s : RPState, (RP.write_unlock s).2 = [Wake.allReaders, Wake.oneWriter]) := by
  refine ⟨?_, ?_, ?_, ?_⟩
  · intro s
    cases hw : s.writer_active <;> simp [RP.read_lock, RP.read_pred, hw]
  · intro s h
    rw [RP.read_unlock, if_pos (by omega)]
  · intro s h
    rw [RP.read_unlock, if_neg (by omega)]
  · intro s
    rfl

/-- Witness for C5 at concrete states: the sole reader's release wakes one
writer; a non-last release wakes nobody. -/
theorem C5_rp_reader_preference_witness :
    (RP.read_unlock ⟨1, false, 1⟩).2 = [Wake.oneWriter] ∧
    (RP.read_unlock ⟨2, false, 1⟩).2 = [] := by
  constructor
  · exact C5_rp_reader_preference.2.1 ⟨1, false, 1⟩ rfl
  · exact C5_rp_reader_preference.2.2.1 ⟨2, false, 1⟩ (by decide)

/-- C6 counterexample: a reader release (`end_read`) from the state with
two active readers, one waiting writer and no waiting readers wakes
nobody, although the claim's wake rule ("every release wakes exactly one
waiting writer if any writer is waiting") demands one writer be woken. -/
theorem C6_counterexample :
    0 < (⟨2, false, 0, 1⟩ : MonState).waiting_writers ∧
    (Mon.end_read ⟨2, false, 0, 1⟩).2 = [] := by
  decide

/-- C6 amended: the monitor has the same two grant predicates as the
writer-preference engine (on the non-negative counters the code
maintains); the claimed wake rule holds for writer releases — `end_write`
wakes one waiting writer if any, else all waiting readers, else nobody —
while a reader release (`end_read`) wakes one waiting writer exactly when
it is the last reader and a writer waits, and never wakes readers. -/
theorem C6_mon_wp_equivalence :
    (∀ (rc wr ww rc2 res : Int) (wa : Bool), 0 ≤ ww →
      Mon.read_pred ⟨rc, wa, wr, ww⟩ = WP.read_pred ⟨rc2, wa, ww, res⟩) ∧
    (∀ (rc wr ww ww2 res : Int) (wa : Bool), 0 ≤ rc →
      Mon.write_pred ⟨rc, wa, wr, ww⟩ = WP.write_pred ⟨rc, wa, ww2, res⟩) ∧
    (∀ s : MonState, 0 < s.waiting_writers → (Mon.end_write s).2 = [Wake.oneWriter]) ∧
    (∀ s : MonState, s.waiting_writers ≤ 0 → 0 < s.waiting_readers →
      (Mon.end_write s).2 = [Wake.allReaders]) ∧
    (∀ s : MonState, s.waiting_writers ≤ 0 → s.waiting_readers ≤ 0 →
      (Mon.end_write s).2 = []) ∧
    (∀ s : MonState, s.reader_count - 1 = 0 → 0 < s.waiting_writers →
      (Mon.end_read s).2 = [Wake.oneWriter]) ∧
    (∀ s : MonState, ¬(s.reader_count - 1 = 0 ∧ 0 < s.waiting_writers) →
      (Mon.end_read s).2 = []) := by
  refine ⟨?_, ?_, ?_, ?_, ?_, ?_, ?_⟩
  · intro rc wr ww rc2 res wa hww
    cases wa
    · simp only [Mon.read_pred, WP.read_pred, Bool.false_or, Bool.not_false,
        Bool.true_and]
      rw [Bool.eq_iff_iff]
      simp only [Bool.not_eq_true', decide_eq_false_iff_not, not_lt, beq_iff_eq]
      omega
    · simp [Mon.read_pred, WP.read_pred]
  · intro rc wr ww ww2 res wa hrc
    cases wa
    · simp only [Mon.write_pred, WP.write_pred, Bool.or_false, Bool.not_false,
        Bool.and_true]
      rw [Bool.eq_iff_iff]
      simp only [Bool.not_eq_true', decide_eq_false_iff_not, not_lt, beq_iff_eq]
      omega
    · simp [Mon.write_pred, WP.write_pred]
  · intro s h
    rw [Mon.end_write]
    simp [if_pos h]
  · intro s h1 h2
    rw [Mon.end_write]
    simp only
    rw [if_neg (by omega), if_pos h2]
  · intro s h1 h2
    rw [Mon.end_write]
    simp only
    rw [if_neg (by omega), if_neg (by omega)]
  · intro s h1 h2
    rw [Mon.end_read]
    simp only
    rw [if_pos ⟨h1, h2⟩]
  · intro s h
    rw [Mon.end_read]
    simp only
    rw [if_neg h]

/-- Witness for C6's amended theorem at concrete states. -/
theorem C6_mon_wp_equivalence_witness :
    Mon.read_pred ⟨0, false, 0, 0⟩ = WP.read_pred ⟨0, false, 0, 0⟩ ∧
    (Mon.end_write ⟨0, false, 3, 1⟩).2 = [Wake.oneWriter] ∧
    (Mon.end_write ⟨0, false, 3, 0⟩).2 = [Wake.allReaders] ∧
    (Mon.end_read ⟨1, false, 0, 1⟩).2 = [Wake.oneWriter] := by
  refine ⟨?_, ?_, ?_, ?_⟩
  · exact C6_mon_wp_equivalence.1 0 0 0 0 0 false (by decide)
  · exact C6_mon_wp_equivalence.2.2.1 ⟨0, false, 3, 1⟩ (by decide)
  · exact C6_mon_wp_equivalence.2.2.2.1 ⟨0, false, 3, 0⟩ (by decide) (by decide)
  · exact C6_mon_wp_equivalence.2.2.2.2.2.1 ⟨1, false, 0, 1⟩ (by decide) (by decide)

/-- C7: the snapshot surface for the reporter is read-only: `get_state`
returns the four counters {reader_count, writer_active as 0/1,
waiting_readers, waiting_writers} and `queue_size` returns the admission
queue length, and both leave every field of the bookkeeping state (and the
queue) unchanged. -/
theorem C7_snapshot_read_only :
    (∀ s : MonState, (Mon.get_state s).1 = s ∧
      (Mon.get_state s).2 = (s.reader_count, (if s.writer_active then 1 else 0),
        s.waiting_readers, s.waiting_writers)) ∧
    (∀ s : FairState, (Fair.queue_size s).1 = s ∧
      (Fair.queue_size s).2 = s.queue.length) :=
  ⟨fun _ => ⟨rfl, rfl⟩, fun _ => ⟨rfl, rfl⟩⟩

lemma sem_pass_snd (s : SemState) : (Sem.reader_pass s).2 = s.writer_waiting := rfl

lemma sem_pass_wait (s : SemState) (h : s.writer_waiting = true) :
    Sem.reader_pass s = (s, true) := by
  obtain ⟨m, wm, rm, rc, ww⟩ := s
  simp only at h
  subst h
  simp [Sem.reader_pass, SemState.mk.injEq]

lemma sem_pass_go (s : SemState) (h : s.writer_waiting = false) :
    (Sem.reader_pass s).1.reader_count = s.reader_count + 1 ∧
    (Sem.reader_pass s).2 = false ∧
    (Sem.reader_pass s).1.write_mutex =
      (if s.reader_count + 1 = 1 then s.write_mutex - 1 else s.write_mutex) ∧
    (Sem.reader_pass s).1.mutex = s.mutex ∧
    (Sem.reader_pass s).1.read_mutex = s.read_mutex := by
  obtain ⟨m, wm, rm, rc, ww⟩ := s
  simp only at h
  subst h
  simp [Sem.reader_pass]

lemma sem_rl_true (fuel : Nat) : ∀ (k : Nat) (s : SemState),
    Sem.reader_lock fuel (fun _ => true) k s = none := by
  induction fuel with
  | zero => intro k s; rfl
  | succ n ih =>
      intro k s
      rw [Sem.reader_lock]
      simp only [sem_pass_snd]
      simp
      exact ih (k + 1) _

lemma sem_rl_some (fuel : Nat) : ∀ (env : Nat → Bool) (k : Nat) (s s' : SemState),
    Sem.reader_lock fuel env k s = some s' → ∃ n, env n = false := by
  induction fuel with
  | zero =>
      intro env k s s' h
      exact absurd h (by simp [Sem.reader_lock])
  | succ n ih =>
      intro env k s s' h
      by_cases he : env k = true
      · rw [Sem.reader_lock] at h
        simp only [sem_pass_snd] at h
        simp [he] at h
        exact ih env (k + 1) _ s' h
      · exact ⟨k, by simpa using he⟩

/-- C8: in the semaphore engine one pass of `reader_lock` that observes
`writer_waiting = true` leaves the state (reader count and all three
semaphores) completely unchanged and reports retry; a pass observing
`false` counts the reader (the first reader taking `write_mutex`) and
balances the other semaphores; the self-recursive retry never returns
while every observation is `true` (for any recursion depth), and any
returning call has observed `false` at some pass. -/
theorem C8_sem_reader_retry :
    (∀ s : SemState, s.writer_waiting = true → Sem.reader_pass s = (s, true)) ∧
    (∀ s : SemState, s.writer_waiting = false →
      (Sem.reader_pass s).1.reader_count = s.reader_count + 1 ∧
      (Sem.reader_pass s).2 = false ∧
      (Sem.reader_pass s).1.write_mutex =
        (if s.reader_count + 1 = 1 then s.write_mutex - 1 else s.write_mutex) ∧
      (Sem.reader_pass s).1.mutex = s.mutex ∧
      (Sem.reader_pass s).1.read_mutex = s.read_mutex) ∧
    (∀ (fuel k : Nat) (s : SemState),
      Sem.reader_lock fuel (fun _ => true) k s = none) ∧
    (∀ (fuel : Nat) (env : Nat → Bool) (k : Nat) (s s' : SemState),
      Sem.reader_lock fuel env k s = some s' → ∃ n, env n = false) :=
  ⟨sem_pass_wait, sem_pass_go,
    fun fuel k s => sem_rl_true fuel k s,
    fun fuel env k s s' h => sem_rl_some fuel env k s s' h⟩

/-- Witness for C8 at concrete inputs: a retry pass leaves `SemInit` with
the flag set unchanged; a clear pass from `SemInit` counts one reader; the
always-true environment never returns within five passes; the environment
that clears after the first pass makes the call return, hence it was
observed false somewhere. -/
theorem C8_sem_reader_retry_witness :
    Sem.reader_pass ⟨1, 1, 1, 0, true⟩ = (⟨1, 1, 1, 0, true⟩, true) ∧
    (Sem.reader_pass ⟨1, 1, 1, 0, false⟩).1.reader_count = 0 + 1 ∧
    Sem.reader_lock 5 (fun _ => true) 0 SemInit = none ∧
    (∃ n, (fun m => decide (m = 0)) n = false) := by
  refine ⟨?_, ?_, ?_, ?_⟩
  · exact C8_sem_reader_retry.1 ⟨1, 1, 1, 0, true⟩ rfl
  · exact (C8_sem_reader_retry.2.1 ⟨1, 1, 1, 0, false⟩ rfl).1
  · exact C8_sem_reader_retry.2.2.1 5 0 SemInit
  · exact C8_sem_reader_retry.2.2.2 3 (fun m => decide (m = 0)) 0 SemInit
      ⟨1, 0, 1, 1, false⟩ (by decide)

/-- C9 counterexample: from the initial writer-preference state, the
granted writer enters its critical section holding `resource_mutex`
(hold count 1), an additional data lock beyond its admission, contrary to
the claim that no lock other than the admission is held inside the
critical section. -/
theorem C9_counterexample :
    WP.write_granted (WP.writer_arrive WPInit) = some ⟨0, true, 0, 1⟩ ∧
    (0 : Int) < (⟨0, true, 0, 1⟩ : WPState).resource := by
  decide

/-- C9 amended: in the writer-preference, reader-preference and FIFO fair
policies the protected resource is guarded by `resource_mutex` in addition
to the admission discipline: a granted writer acquires it before its
critical section and releases it at `write_unlock`, and on the
condition-variable read paths the first reader acquires it and the last
reader releases it. -/
theorem C9_resource_lock_held :
    (∀ s s' : WPState, WP.write_granted s = some s' → s'.resource = s.resource + 1) ∧
    (∀ s : WPState, ((WP.write_unlock s).1).resource = s.resource - 1) ∧
    (∀ s s' : WPState, s.reader_count = 0 → WP.read_lock s = some s' →
      s'.resource = s.resource + 1) ∧
    (∀ s : WPState, s.reader_count = 1 → ((WP.read_unlock s).1).resource = s.resource - 1) ∧
    (∀ s s' : RPState, RP.write_granted s = some s' → s'.resource = s.resource + 1) ∧
    (∀ s : FairState, (Fair.write_enter s).resource = s.resource + 1) := by
  refine ⟨?_, ?_, ?_, ?_, ?_, ?_⟩
  · intro s s' h
    unfold WP.write_granted at h
    split at h
    · cases h; rfl
    · exact absurd h (by simp)
  · intro s
    rfl
  · intro s s' h0 h
    unfold WP.read_lock at h
    split at h
    · cases h
      simp [h0]
    · exact absurd h (by simp)
  · intro s h1
    rw [WP.read_unlock, if_pos (by omega)]
  · intro s s' h
    unfold RP.write_granted at h
    split at h
    · cases h; rfl
    · exact absurd h (by simp)
  · intro s
    rfl

/-- Witness for C9's amended theorem at concrete states. -/
theorem C9_resource_lock_held_witness :
    ((⟨0, true, 0, 1⟩ : WPState)).resource = (0 : Int) + 1 ∧
    ((⟨1, false, 0, 1⟩ : WPState)).resource = (0 : Int) + 1 := by
  constructor
  · exact C9_resource_lock_held.1 (WP.writer_arrive WPInit) ⟨0, true, 0, 1⟩ (by decide)
  · exact C9_resource_lock_held.2.2.1 WPInit ⟨1, false, 0, 1⟩ rfl (by decide)

/-- C10: in the FIFO fair engine no grant in `process_queue` and no
`read_lock` touches `resource_mutex`, while the last reader's
`read_unlock` unlocks it; concretely, granting one read from the initial
state and releasing it ends with the `resource_mutex` hold count at -1:
an unlock with no matching prior lock on any read path. -/
theorem C10_fair_unmatched_unlock :
    (∀ s : FairState, (Fair.process_queue s).resource = s.resource) ∧
    (∀ (id : Nat) (s : FairState), (Fair.read_lock id s).resource = s.resource) ∧
    (∀ s : FairState, s.active_readers = 1 →
      (Fair.read_unlock s).resource = s.resource - 1) ∧
    ((Fair.read_lock 0 FairInit).active_readers = 1 ∧
     (Fair.read_lock 0 FairInit).granted = [0] ∧
     (Fair.read_lock 0 FairInit).resource = 0 ∧
     (Fair.read_unlock (Fair.read_lock 0 FairInit)).resource = -1) := by
  have hpq : ∀ s : FairState, (Fair.process_queue s).resource = s.resource := by
    intro s
    unfold Fair.process_queue
    split
    · rfl
    · split <;> rfl
    · split <;> rfl
  refine ⟨hpq, ?_, ?_, ?_⟩
  · intro id s
    rw [Fair.read_lock, hpq]
  · intro s h
    rw [Fair.read_unlock, hpq]
    simp [h]
  · refine ⟨by decide, by decide, by decide, by decide⟩

/-- Witness for C10 at the concrete one-reader execution. -/
theorem C10_fair_unmatched_unlock_witness :
    (Fair.read_unlock ⟨[], 1, false, 0, [0]⟩).resource = 0 - 1 :=
  C10_fair_unmatched_unlock.2.2.1 ⟨[], 1, false, 0, [0]⟩ rfl
